import Mathlib

/-!
Verification of the sidecar agent runtime against its natural-language
specification.  The definitions below are a shallow embedding of the Rust
source: pure functions become Lean functions, streaming loops become folds
over explicit event lists, and file-system or network effects become
explicit traces.  Each claim of the specification is settled by a theorem
about these definitions.
-/

/- ## Part 1: the OpenRouter LLM client (llm_client/src/clients/open_router.rs) -/

namespace OpenRouter

/-- Model identifiers.  The `LLMType` enum itself lives in
`llm_client/src/clients/types.rs`; its variants are reconstructed from the
uses across the repository (`LLMType::ClaudeHaiku`, `LLMType::Custom`, ...)
plus the spec's description "A model identifier (enum + Custom(name))". -/
inductive LLMType where
  | ClaudeHaiku
  | ClaudeSonnet
  | ClaudeOpus
  | Gpt4
  | Gpt4O
  | DeepSeekCoderV2
  | GeminiPro
  | GeminiProFlash
  | O1Preview
  | Custom (name : String)
deriving DecidableEq

/-- Provider API keys.  The enum lives in `llm_client/src/provider.rs`
(not part of the sources here); variants reconstructed from uses.  Only the
constructor matters for the open-router client, which accepts exactly the
`OpenRouter` variant. -/
inductive LLMProviderAPIKeys where
  | OpenRouter (api_key : String)
  | OpenAI (api_key : String)
  | Anthropic (api_key : String)
  | GoogleAIStudio (api_key : String)
  | Ollama
deriving DecidableEq

/-- Client error taxonomy, from the spec's §7 list for providers
(`HttpError`, `AuthError`, `WrongAPIKeyType`, `DeserializationError`,
`SendChannelClosed`); the enum itself is declared in
`llm_client/src/clients/types.rs` which is not among the sources. -/
inductive LLMClientError where
  | HttpError
  | AuthError
  | WrongAPIKeyType
  | DeserializationError
  | SendChannelClosed
deriving DecidableEq

/-- `struct ToolFunction` of open_router.rs: optional name and arguments. -/
structure ToolFunction where
  name : Option String
  arguments : Option String
deriving DecidableEq

/-- `struct ToolCall` of open_router.rs. -/
structure ToolCall where
  index : Int
  id : Option String
  call_type : Option String
  function_details : Option ToolFunction
deriving DecidableEq

/-- `struct OpenRouterResponseDelta` of open_router.rs. -/
structure OpenRouterResponseDelta where
  role : Option String
  content : Option String
  function_call : Option ToolFunction
  tool_calls : Option (List ToolCall)
deriving DecidableEq

/-- `struct OpenRouterResponseChoice` of open_router.rs. -/
structure OpenRouterResponseChoice where
  delta : OpenRouterResponseDelta
  finish_reason : Option String
deriving DecidableEq

/-- `struct OpenRouterResponse` of open_router.rs. -/
structure OpenRouterResponse where
  model : String
  choices : List OpenRouterResponseChoice
deriving DecidableEq

/-- One decoded server-sent event payload, as the Rust loop case-splits on
it: the `[DONE]` sentinel, a payload that deserialises as
`OpenRouterResponse`, or a payload on which `serde_json::from_str` fails. -/
inductive EventData where
  | done
  | json (response : OpenRouterResponse)
  | malformed (raw : String)
deriving DecidableEq

/-- One item of the `eventsource` stream: either an event or a
transport-level error (the `Err(e)` arm of the `while let` loop). -/
inductive SSEEvent where
  | ev (data : EventData)
  | transportError (msg : String)
deriving DecidableEq

/-- `LLMClientCompletionResponse` (types.rs, reconstructed from the call
`LLMClientCompletionResponse::new(answer_up_until_now, delta, model)` and
the spec's "Streaming Delta" description). -/
structure LLMClientCompletionResponse where
  answer_up_until_now : String
  delta : Option String
  model : String
deriving DecidableEq

/-- The completion request; only the model identifier is consulted by the
open-router client besides the messages that are serialised into the HTTP
body.  Other fields (temperature, images, ...) are elided. -/
structure LLMClientCompletionRequest where
  model : LLMType
  messages : List (String × String)
deriving DecidableEq

/-- `OpenRouterClient::model`: the per-client model-name table. -/
def OpenRouterClient.model : LLMType → Option String
  | .ClaudeHaiku => some "anthropic/claude-3-haiku"
  | .ClaudeSonnet => some "anthropic/claude-3.5-sonnet:beta"
  | .ClaudeOpus => some "anthropic/claude-3-opus"
  | .Gpt4 => some "openai/gpt-4"
  | .Gpt4O => some "openai/gpt-4o"
  | .DeepSeekCoderV2 => some "deepseek/deepseek-coder"
  | .Custom name => some name
  | _ => none

/-- `OpenRouterClient::generate_auth_key`. -/
def generate_auth_key : LLMProviderAPIKeys → Except LLMClientError String
  | .OpenRouter k => .ok k
  | _ => .error .WrongAPIKeyType

/-- Outcome of processing the event stream: a value, a typed client error
(the `?` operator), or a Rust panic (`&value.choices[0]` on an empty
vector). -/
inductive StreamOutcome (σ : Type) where
  | next (st : σ)
  | fail (e : LLMClientError)
  | panics
deriving DecidableEq

/-- State of the `stream_completion` loop: the running buffer and the
responses sent so far on the unbounded channel (in order). -/
structure StreamState where
  buffered_stream : String
  sent : List LLMClientCompletionResponse
deriving DecidableEq

/-- One iteration of the `while let Some(event)` loop of
`OpenRouterClient::stream_completion`. -/
def streamCompletionStep (st : StreamState) (event : SSEEvent) :
    StreamOutcome StreamState :=
  match event with
  | .transportError _ => .next st
  | .ev .done => .next st
  | .ev (.malformed _) => .fail .DeserializationError
  | .ev (.json value) =>
    match value.choices.head? with
    | none => .panics
    | some first_choice =>
      match first_choice.delta.content with
      | none => .next st
      | some content =>
        let buffered := st.buffered_stream ++ content
        .next { buffered_stream := buffered,
                sent := st.sent ++
                  [{ answer_up_until_now := buffered,
                     delta := some content,
                     model := value.model }] }

/-- Folds a step function over the received events, stopping at the first
error or panic, exactly as the Rust loop does. -/
def runStream {σ : Type} (step : σ → SSEEvent → StreamOutcome σ) :
    σ → List SSEEvent → StreamOutcome σ
  | st, [] => .next st
  | st, event :: rest =>
    match step st event with
    | .next st2 => runStream step st2 rest
    | .fail e => .fail e
    | .panics => .panics

/-- `OpenRouterClient::stream_completion`.  The network interaction is
modelled by the list of SSE events the response body would produce; the
model-table lookup and the auth-key check happen before the HTTP POST, so
an event list is only consumed after both succeed.  Returns the final
buffered text together with the responses pushed onto the sender. -/
def stream_completion (api_key : LLMProviderAPIKeys)
    (request : LLMClientCompletionRequest) (events : List SSEEvent) :
    StreamOutcome (String × List LLMClientCompletionResponse) :=
  match OpenRouterClient.model request.model with
  | none => .fail .WrongAPIKeyType
  | some _ =>
    match generate_auth_key api_key with
    | .error e => .fail e
    | .ok _ =>
      match runStream streamCompletionStep ⟨"", []⟩ events with
      | .next st => .next (st.buffered_stream, st.sent)
      | .fail e => .fail e
      | .panics => .panics

/-- State of the `stream_completion_with_tool` loop: buffer and sent
responses as before, plus the tool-call aggregator (`tool_use_indication`,
`curernt_tool_use`, `current_tool_use_id`, `running_tool_input` in the
source). -/
structure ToolStreamState where
  buffered_stream : String
  sent : List LLMClientCompletionResponse
  tool_use_indication : List (String × String × String)
  current_tool_use : Option String
  current_tool_use_id : Option String
  running_tool_input : String
deriving DecidableEq

/-- The initial aggregator state of `stream_completion_with_tool`. -/
def toolInitState : ToolStreamState :=
  { buffered_stream := ""
    sent := []
    tool_use_indication := []
    current_tool_use := none
    current_tool_use_id := none
    running_tool_input := "" }

/-- The body of the `for_each` over `tool_calls` in
`stream_completion_with_tool`: the provider-supplied `index` is read into
`_tool_call_index` and then never used; id, name and arguments update the
single global aggregator. -/
def applyToolCall (st : ToolStreamState) (tool_call : ToolCall) :
    ToolStreamState :=
  match tool_call.function_details with
  | none => st
  | some function_details =>
    let st1 := match tool_call.id with
      | some tool_id => { st with current_tool_use_id := some tool_id }
      | none => st
    let st2 := match function_details.name with
      | some name => { st1 with current_tool_use := some name }
      | none => st1
    match function_details.arguments with
    | some args =>
      { st2 with running_tool_input := st2.running_tool_input ++ args }
    | none => st2

/-- One iteration of the event loop of
`OpenRouterClient::stream_completion_with_tool`, in source order: content
append + send, then the `finish_reason == "tool_use"` flush, then the
`tool_calls` merge. -/
def streamWithToolStep (st : ToolStreamState) (event : SSEEvent) :
    StreamOutcome ToolStreamState :=
  match event with
  | .transportError _ => .next st
  | .ev .done => .next st
  | .ev (.malformed _) => .fail .DeserializationError
  | .ev (.json value) =>
    match value.choices.head? with
    | none => .panics
    | some first_choice =>
      let st := match first_choice.delta.content with
        | none => st
        | some content =>
          { st with
            buffered_stream := st.buffered_stream ++ content
            sent := st.sent ++
              [{ answer_up_until_now := st.buffered_stream ++ content,
                 delta := some content,
                 model := value.model }] }
      let st := match first_choice.finish_reason with
        | some finish_reason =>
          if finish_reason == "tool_use" then
            let st := match st.current_tool_use, st.current_tool_use_id with
              | some name, some tool_id =>
                { st with tool_use_indication :=
                    st.tool_use_indication ++
                      [(name, tool_id, st.running_tool_input)] }
              | _, _ => st
            { st with
              current_tool_use := none
              current_tool_use_id := none
              running_tool_input := "" }
          else st
        | none => st
      match first_choice.delta.tool_calls with
      | none => .next st
      | some tool_calls => .next (tool_calls.foldl applyToolCall st)

/-- `OpenRouterClient::stream_completion_with_tool`, with the network
modelled by the event list (consumed only after the model lookup and the
auth-key check succeed).  Returns the buffered text and the accumulated
`tool_use_indication` list of `(name, (id, arguments))`. -/
def stream_completion_with_tool (api_key : LLMProviderAPIKeys)
    (request : LLMClientCompletionRequest) (events : List SSEEvent) :
    StreamOutcome (String × List (String × String × String)) :=
  match OpenRouterClient.model request.model with
  | none => .fail .WrongAPIKeyType
  | some _ =>
    match generate_auth_key api_key with
    | .error e => .fail e
    | .ok _ =>
      match runStream streamWithToolStep toolInitState events with
      | .next st => .next (st.buffered_stream, st.tool_use_indication)
      | .fail e => .fail e
      | .panics => .panics

/-- The `(index, arguments)` pieces contributed by the `tool_calls` list of
a single chunk, in the order the loop visits them. -/
def toolCallPieces (tool_calls : List ToolCall) : List (Int × String) :=
  tool_calls.foldr
    (fun tool_call acc =>
      match tool_call.function_details with
      | some function_details =>
        match function_details.arguments with
        | some args => (tool_call.index, args) :: acc
        | none => acc
      | none => acc) []

/-- The `(index, arguments)` pieces an event contributes to the aggregator
(only the first choice of a JSON chunk is consulted, as in the source). -/
def eventArgumentPieces : SSEEvent → List (Int × String)
  | .ev (.json value) =>
    match value.choices.head? with
    | some first_choice =>
      match first_choice.delta.tool_calls with
      | some tool_calls => toolCallPieces tool_calls
      | none => []
    | none => []
  | _ => []

/-- All argument pieces of a stream, in arrival order. -/
def argumentPieces (events : List SSEEvent) : List (Int × String) :=
  (events.map eventArgumentPieces).flatten

/-- Concatenation of the second components of a piece list. -/
def concatPieces (pieces : List (Int × String)) : String :=
  pieces.foldr (fun p acc => p.2 ++ acc) ""

/-- Concatenation of the argument pieces in arrival order — what the code
actually accumulates into `running_tool_input`. -/
def arrivalArguments (events : List SSEEvent) : String :=
  concatPieces (argumentPieces events)

/-- Stable insertion of a piece into a list sorted by ascending index:
the new piece goes before the first strictly larger index and after
earlier pieces with the same index. -/
def insertByIndex (p : Int × String) : List (Int × String) → List (Int × String)
  | [] => [p]
  | q :: qs => if p.1 ≤ q.1 then p :: q :: qs else q :: insertByIndex p qs

/-- Stable sort of argument pieces by ascending index. -/
def sortByIndex : List (Int × String) → List (Int × String)
  | [] => []
  | p :: ps => insertByIndex p (sortByIndex ps)

/-- Follows the spec's words, for comparison with the implementation:
"partial arguments across chunks concatenate by the provider-supplied
index" / "concatenating arguments pieces by ascending index across all
chunks". -/
def specMergedArguments (events : List SSEEvent) : String :=
  concatPieces (sortByIndex (argumentPieces events))

/-- An event whose first choice does not signal `finish_reason =
"tool_use"` (transport errors and sentinels trivially qualify). -/
def noToolUseFinish : SSEEvent → Bool
  | .ev (.json value) =>
    match value.choices.head? with
    | some first_choice => first_choice.finish_reason != some "tool_use"
    | none => true
  | _ => true

/-- A chunk that carries nothing but `finish_reason = "tool_use"`, the
shape with which the provider terminates a tool call. -/
def finishToolUseEvent : SSEEvent :=
  .ev (.json
    { model := "m"
      choices := [{ delta := { role := none, content := none,
                               function_call := none, tool_calls := none }
                    finish_reason := some "tool_use" }] })

/-- The cumulative-text chain: starting from `prev`, every response in the
list carries a delta, and its `answer_up_until_now` is exactly the previous
cumulative text extended by that delta. -/
def deltaChain : String → List LLMClientCompletionResponse → Prop
  | _, [] => True
  | prev, r :: rest =>
    (∃ d, r.delta = some d ∧ r.answer_up_until_now = prev ++ d) ∧
      deltaChain r.answer_up_until_now rest

/-- The cumulative text after a list of responses (starting from `prev`). -/
def chainEnd (prev : String) : List LLMClientCompletionResponse → String
  | [] => prev
  | r :: rest => chainEnd r.answer_up_until_now rest

/-- Invariant of the `stream_completion` loop: the responses sent so far
form a delta chain from the empty string and the buffer equals the last
cumulative text. -/
def streamInv (st : StreamState) : Prop :=
  deltaChain "" st.sent ∧ st.buffered_stream = chainEnd "" st.sent

/-- A chunk carrying only content text, as a provider would stream it. -/
def contentEvent (content : String) : SSEEvent :=
  .ev (.json
    { model := "m"
      choices := [{ delta := { role := none, content := some content,
                               function_call := none, tool_calls := none }
                    finish_reason := none }] })

/-- A chunk carrying a single `tool_calls` entry. -/
def toolChunk (index : Int) (id name args : Option String) : SSEEvent :=
  .ev (.json
    { model := "m"
      choices := [{ delta := { role := none, content := none,
                               function_call := none,
                               tool_calls := some
                                 [{ index := index, id := id,
                                    call_type := none,
                                    function_details :=
                                      some { name := name,
                                             arguments := args } }] }
                    finish_reason := none }] })

/-- The concrete stream of claim C1's counterexample: an arguments piece
with provider index 1 arrives before a piece with index 0, then the
provider signals `finish_reason = "tool_use"`. -/
def outOfOrderIndexEvents : List SSEEvent :=
  [toolChunk 1 (some "t") (some "f") (some "B"),
   toolChunk 0 none none (some "A"),
   finishToolUseEvent]

end OpenRouter

/- ## Part 2: the regex search tool (sidecar/src/agentic/tool/lsp/search_file.rs) -/

namespace SearchFile

/-- `MAX_RESULTS` of search_file.rs: "Magic number which came into
existence to not break LLM context windows". -/
def MAX_RESULTS : Nat := 250

/-- Tool error variants touched by `SearchFileContentClient::invoke`
(the full enum lives in tool/errors.rs, outside the sources here; the
spec §7 lists the taxonomy). -/
inductive ToolError where
  | SerdeConversionFailed
  | IOError
  | OutputStreamNotPresent
deriving DecidableEq

/-- `SearchFileContentWithRegexOutput` of search_file.rs. -/
structure SearchFileContentWithRegexOutput where
  formatted_response : String
deriving DecidableEq

/-- The `while let Some(line)` loop of `SearchFileContentClient::invoke`:
stops as soon as `line_count` reaches `MAX_RESULTS * 4`, otherwise appends
the line plus a newline to the output. -/
def readLinesBounded : List String → Nat → String → String
  | [], _, output => output
  | line :: rest, line_count, output =>
    if line_count ≥ MAX_RESULTS * 4 then output
    else readLinesBounded rest (line_count + 1) (output ++ line ++ "\n")

/-- `SearchFileContentClient::invoke`, given the lines ripgrep wrote to
its stdout.  The rip-grep path lookup, the process spawn and the final
`child.wait()` are environment interactions modelled as succeeding: the
claims below concern what the reading loop does with the output. -/
def search_invoke (ripgrep_stdout_lines : List String) :
    Except ToolError SearchFileContentWithRegexOutput :=
  .ok { formatted_response := readLinesBounded ripgrep_stdout_lines 0 "" }

/-- The first `n` lines, each terminated by a newline, concatenated. -/
def joinedLines (lines : List String) : String :=
  (lines.map (fun line => line ++ "\n")).foldr (· ++ ·) ""

end SearchFile

/- ## Part 3: the tool-use agent reply parser
(sidecar/src/agentic/tool/session/tool_use_agent.rs) -/

namespace ToolAgent

/-- The tag set of `parse_out_tool_input`, in the order the `tags` vector
lists them. -/
def toolTags : List String :=
  ["thinking", "search_files", "code_edit_input", "list_files",
   "read_file", "get_diagnostics", "execute_command",
   "attempt_completion", "ask_followup_question"]

/-- Strips `marker` from the front of `cs`, returning the remainder. -/
def dropLeading : List Char → List Char → Option (List Char)
  | [], cs => some cs
  | _ :: _, [] => none
  | p :: ps, c :: cs => if c = p then dropLeading ps cs else none

/-- Splits `cs` at the first occurrence of `marker`, returning the part
before the marker and the part after it — the lazy `(.*?)</tag>` match of
the parser's regex. -/
def splitAtMarker (marker : List Char) : List Char → Option (List Char × List Char)
  | [] =>
    match dropLeading marker [] with
    | some rest => some ([], rest)
    | none => none
  | c :: cs =>
    match dropLeading marker (c :: cs) with
    | some rest => some ([], rest)
    | none =>
      match splitAtMarker marker cs with
      | some (pre, post) => some (c :: pre, post)
      | none => none

/-- The characters of `<tag>`. -/
def openMarker (tag : String) : List Char :=
  '<' :: (tag.toList ++ ['>'])

/-- The characters of `</tag>`. -/
def closeMarker (tag : String) : List Char :=
  '<' :: '/' :: (tag.toList ++ ['>'])

/-- Tries each tag of `tags` in order at the start of `cs` — the regex
alternation `<(thinking|search_files|...)>(.*?)</\1>` anchored at the
current scan position.  On a hit, returns the tag, the body (text up to
the first matching close tag) and the rest of the text after the close
tag. -/
def tagMatchWith : List String → List Char → Option (String × String × List Char)
  | [], _ => none
  | tag :: tags, cs =>
    match dropLeading (openMarker tag) cs with
    | some afterOpen =>
      match splitAtMarker (closeMarker tag) afterOpen with
      | some (content, rest) => some (tag, content.asString, rest)
      | none => tagMatchWith tags cs
    | none => tagMatchWith tags cs

/-- Scanner with explicit fuel (one unit per character is enough, see
`scanToolTags`): at each position try a full tag match; on a hit emit the
capture and resume after the close tag, otherwise advance one character —
the behaviour of `Regex::captures_iter`. -/
def scanGo : Nat → List Char → List (String × String)
  | 0, _ => []
  | fuel + 1, cs =>
    match tagMatchWith toolTags cs with
    | some (tag, content, rest) => (tag, content) :: scanGo fuel rest
    | none =>
      match cs with
      | [] => []
      | _ :: cs2 => scanGo fuel cs2

/-- All `(tag, body)` captures of the parser's regex over the input, in
scan order. -/
def scanToolTags (cs : List Char) : List (String × String) :=
  scanGo cs.length cs

/-- `SearchFileContentInputPartial` of search_file.rs (the one schema
struct among the sources): directory path, regex pattern, optional file
pattern. -/
structure SearchFileContentInput where
  directory_path : String
  regex_pattern : String
  file_pattern : Option String
deriving DecidableEq

/-- Modelled from the spec: `OpenFileRequestPartial` (tool/lsp/open_file.rs
is not among the sources); the open-file tool's input carries the path of
the file to read. -/
structure OpenFileRequest where
  fs_file_path : String
deriving DecidableEq

/-- Modelled from the spec: `ListFilesInput` (tool/lsp/list_files.rs is
not among the sources). -/
structure ListFilesInput where
  directory_path : String
deriving DecidableEq

/-- Modelled from the spec: `CodeEditingPartialRequest`
(tool/code_edit/types.rs is not among the sources). -/
structure CodeEditingRequest where
  fs_file_path : String
  instruction : String
deriving DecidableEq

/-- Modelled from the spec: `TerminalInputPartial`
(tool/terminal/terminal.rs is not among the sources). -/
structure TerminalInput where
  command : String
deriving DecidableEq

/-- Modelled from the spec: `AttemptCompletionClientRequest`
(tool/session/attempt_completion.rs is not among the sources). -/
structure AttemptCompletionRequest where
  result : String
deriving DecidableEq

/-- Modelled from the spec: `AskFollowupQuestionsRequest`
(tool/session/ask_followup_question.rs is not among the sources). -/
structure AskFollowupQuestionsRequest where
  question : String
deriving DecidableEq

/-- `ToolInputPartial` of tool/input.rs, restricted to the variants
`parse_out_tool_input` can produce. -/
inductive ToolInputKind where
  | searchFileContentWithRegex (input : SearchFileContentInput)
  | codeEditing (input : CodeEditingRequest)
  | listFiles (input : ListFilesInput)
  | openFile (input : OpenFileRequest)
  | lspDiagnostics
  | terminalCommand (input : TerminalInput)
  | attemptCompletion (input : AttemptCompletionRequest)
  | askFollowupQuestions (input : AskFollowupQuestionsRequest)
deriving DecidableEq

/-- `ToolUseAgentOutput` of tool_use_agent.rs. -/
inductive ToolUseAgentOutput where
  | success (input : ToolInputKind) (thinking : String)
  | failure (raw : String)
deriving DecidableEq

/-- The per-schema `quick_xml::de::from_str` deserialisers, one per tool
tag that needs one (`get_diagnostics` takes no input).  The schema structs
and their serde derivations live outside the sources here, so the family
is kept abstract; `modelParsers` below instantiates it. -/
structure ToolParsers where
  search_files : String → Option SearchFileContentInput
  code_edit_input : String → Option CodeEditingRequest
  list_files : String → Option ListFilesInput
  read_file : String → Option OpenFileRequest
  execute_command : String → Option TerminalInput
  attempt_completion : String → Option AttemptCompletionRequest
  ask_followup_question : String → Option AskFollowupQuestionsRequest

/-- Extracts the body of the first `<field>...</field>` element — a
minimal model of reading one required field from the XML body. -/
def xmlField (field : String) (content : String) : Option String :=
  match splitAtMarker (openMarker field) content.toList with
  | none => none
  | some (_, afterOpen) =>
    match splitAtMarker (closeMarker field) afterOpen with
    | none => none
    | some (body, _) => some body.asString

/-- Modelled from the spec: concrete deserialisers for the tool input
schemas, each requiring that schema's required fields to be present as XML
elements (quick_xml fails when a required field is absent). -/
def modelParsers : ToolParsers :=
  { search_files := fun content =>
      match xmlField "directory_path" content, xmlField "regex_pattern" content with
      | some d, some r =>
        some { directory_path := d, regex_pattern := r,
               file_pattern := xmlField "file_pattern" content }
      | _, _ => none
    code_edit_input := fun content =>
      match xmlField "fs_file_path" content, xmlField "instruction" content with
      | some f, some i => some { fs_file_path := f, instruction := i }
      | _, _ => none
    list_files := fun content =>
      (xmlField "directory_path" content).map
        (fun d => { directory_path := d })
    read_file := fun content =>
      (xmlField "fs_file_path" content).map
        (fun f => { fs_file_path := f })
    execute_command := fun content =>
      (xmlField "command" content).map (fun c => { command := c })
    attempt_completion := fun content =>
      (xmlField "result" content).map (fun r => { result := r })
    ask_followup_question := fun content =>
      (xmlField "question" content).map (fun q => { question := q }) }

/-- The `for cap in re.captures_iter` loop of `parse_out_tool_input`:
`thinking` captures update the thinking buffer; the first other tag is
deserialised — success returns immediately, a deserialisation failure
returns `Failure` with the whole raw reply immediately. -/
def parseCaptures (P : ToolParsers) (input : String) :
    List (String × String) → Option String → ToolUseAgentOutput
  | [], _ => .failure input
  | (tag, content) :: rest, thinking =>
    if tag = "thinking" then parseCaptures P input rest (some content)
    else if tag = "search_files" then
      match P.search_files content with
      | some parsed => .success (.searchFileContentWithRegex parsed) (thinking.getD "")
      | none => .failure input
    else if tag = "code_edit_input" then
      match P.code_edit_input content with
      | some parsed => .success (.codeEditing parsed) (thinking.getD "")
      | none => .failure input
    else if tag = "list_files" then
      match P.list_files content with
      | some parsed => .success (.listFiles parsed) (thinking.getD "")
      | none => .failure input
    else if tag = "read_file" then
      match P.read_file content with
      | some parsed => .success (.openFile parsed) (thinking.getD "")
      | none => .failure input
    else if tag = "get_diagnostics" then
      .success .lspDiagnostics (thinking.getD "")
    else if tag = "execute_command" then
      match P.execute_command content with
      | some parsed => .success (.terminalCommand parsed) (thinking.getD "")
      | none => .failure input
    else if tag = "attempt_completion" then
      match P.attempt_completion content with
      | some parsed => .success (.attemptCompletion parsed) (thinking.getD "")
      | none => .failure input
    else if tag = "ask_followup_question" then
      match P.ask_followup_question content with
      | some parsed => .success (.askFollowupQuestions parsed) (thinking.getD "")
      | none => .failure input
    else parseCaptures P input rest thinking

/-- `parse_out_tool_input` of tool_use_agent.rs. -/
def parse_out_tool_input (P : ToolParsers) (input : String) : ToolUseAgentOutput :=
  parseCaptures P input (scanToolTags input.toList) none

/-- Applies the deserialiser the match arm for `tag` would use — the
reference mapping used to state the parser claims. -/
def applyParser (P : ToolParsers) (tag content : String) : Option ToolInputKind :=
  if tag = "search_files" then (P.search_files content).map .searchFileContentWithRegex
  else if tag = "code_edit_input" then (P.code_edit_input content).map .codeEditing
  else if tag = "list_files" then (P.list_files content).map .listFiles
  else if tag = "read_file" then (P.read_file content).map .openFile
  else if tag = "get_diagnostics" then some .lspDiagnostics
  else if tag = "execute_command" then (P.execute_command content).map .terminalCommand
  else if tag = "attempt_completion" then (P.attempt_completion content).map .attemptCompletion
  else if tag = "ask_followup_question" then (P.ask_followup_question content).map .askFollowupQuestions
  else none

/-- The thinking text in effect when the scan reaches the first
non-thinking capture: the last preceding `thinking` body, or `""`. -/
def lastThinking (caps : List (String × String)) : String :=
  (((caps.takeWhile (fun c => c.1 == "thinking")).map Prod.snd).getLast?).getD ""

/-- The reply of claim C5's counterexample: the first tool tag's body
does not deserialise (no `fs_file_path` field), while the following
`attempt_completion` tag would deserialise fine. -/
def badThenGoodReply : String :=
  "<read_file>x</read_file><attempt_completion><result>done</result></attempt_completion>"

end ToolAgent

/- ## Part 4: the session service
(sidecar/src/agentic/tool/session/service.rs) -/

namespace SessionSvc

/-- Exchange status, from the spec §3:
`Open | Running | Completed | Cancelled | Rejected`. -/
inductive ExchangeState where
  | Open
  | Running
  | Completed
  | Cancelled
  | Rejected
deriving DecidableEq

/-- Modelled from the spec: the exchange record of session/session.rs
(which is not among the sources), as far as cancellation consults it — its
id, its status, and whether it has in-flight code-edit writes ("whether
the exchange had in-flight writes", possible only while it is running). -/
structure Exchange where
  exchange_id : String
  state : ExchangeState
  in_flight_writes : Bool
deriving DecidableEq

/-- Modelled from the spec: the session document of session/session.rs
(not among the sources): id, ordered exchanges, and the storage path the
document is persisted at. -/
structure Session where
  session_id : String
  exchanges : List Exchange
  storage_path : String
deriving DecidableEq

/-- Error type of the session service (symbol/errors.rs is not among the
sources; only the I/O variant is reachable in the operations modelled
here). -/
inductive SymbolError where
  | IOError
deriving DecidableEq

/-- What sits at a storage path, as `load_from_storage` distinguishes it:
the file may be unreadable (`tokio::fs::read_to_string` fails), readable
but not valid session JSON (then
`serde_json::from_str(&content).expect(...)` panics), or a loadable
session. -/
inductive StoredFile where
  | unreadable
  | undecodable (raw : String)
  | session (s : Session)
deriving DecidableEq

/-- The session store: what each storage path holds. -/
abbrev Store := String → StoredFile

/-- Outcome of `SessionService::load_from_storage`: the loaded session, an
I/O error from `read_to_string`, or a Rust panic from the `.expect` on a
payload serde cannot decode. -/
inductive LoadOutcome where
  | ok (s : Session)
  | ioError
  | panics
deriving DecidableEq

/-- `SessionService::load_from_storage`: a read error becomes
`SymbolError::IOError`; a readable file that fails to deserialise does
not return — the `.expect` panics. -/
def load_from_storage (store : Store) (storage_path : String) : LoadOutcome :=
  match store storage_path with
  | .unreadable => .ioError
  | .undecodable _ => .panics
  | .session s => .ok s

/-- A successful `save_to_storage` makes the session readable at its
storage path. -/
def saveStore (store : Store) (s : Session) : Store :=
  fun p => if p = s.storage_path then .session s else store p

/-- Outcome of a session-service operation: a value, a typed error, or a
Rust panic propagated from `load_from_storage`. -/
inductive SvcResult (α : Type) where
  | ok (value : α)
  | error (e : SymbolError)
  | panics
deriving DecidableEq

/-- The primitive file-system operations `save_to_storage` can issue:
`tokio::fs::File::create` (creates or truncates to empty),
`write_all`, and — for comparison with the spec — an atomic rename. -/
inductive FsOp where
  | create (path : String)
  | writeAll (path : String) (data : String)
  | rename (src_path : String) (dst_path : String)
deriving DecidableEq

/-- The operations `SessionService::save_to_storage` issues, in order:
create (truncate) the storage path, then write the serialised session.
`serialize` stands for `serde_json::to_string`. -/
def save_to_storage_ops (serialize : Session → String) (s : Session) :
    List FsOp :=
  [FsOp.create s.storage_path, FsOp.writeAll s.storage_path (serialize s)]

/-- Effect of one file-system operation on the file contents. -/
def applyFsOp (fs : String → Option String) : FsOp → String → Option String
  | .create p, q => if q = p then some "" else fs q
  | .writeAll p d, q => if q = p then some d else fs q
  | .rename src dst, q =>
    if q = dst then fs src else if q = src then none else fs q

/-- Effect of a sequence of file-system operations; an interrupted save is
a strict prefix of the sequence. -/
def applyFsOps (fs : String → Option String) (ops : List FsOp) :
    String → Option String :=
  ops.foldl applyFsOp fs

/-- Follows the spec's words: "written atomically (write-to-temp,
rename)" — the save writes the document to a temporary file distinct from
the target and renames it over the target. -/
def isAtomicTempWrite (target : String) (ops : List FsOp) : Prop :=
  ∃ tmp data, tmp ≠ target ∧
    ops = [FsOp.create tmp, FsOp.writeAll tmp data, FsOp.rename tmp target]

/-- Modelled from the spec: the per-exchange half of
`Session::set_exchange_as_cancelled` — "flips status to `Cancelled` only
if currently `Running`". -/
def Exchange.set_cancelled (e : Exchange) : Exchange :=
  if e.state = ExchangeState.Running then { e with state := ExchangeState.Cancelled }
  else e

/-- Modelled from the spec: `Session::set_exchange_as_cancelled`
(session/session.rs is not among the sources) applies the
Running→Cancelled flip to the exchange with the given id. -/
def Session.set_exchange_as_cancelled (s : Session) (exchange_id : String) :
    Session :=
  { s with exchanges :=
      s.exchanges.map (fun e =>
        if e.exchange_id = exchange_id then e.set_cancelled else e) }

/-- Modelled from the spec: `Session::has_running_code_edits` — "whether a
cancellation signal must be sent to any live code-edit stream (i.e.
whether the exchange had in-flight writes)"; in-flight writes exist only
while the exchange is running. -/
def Session.has_running_code_edits (s : Session) (exchange_id : String) : Bool :=
  match s.exchanges.find? (fun e => e.exchange_id == exchange_id) with
  | some e => e.state == ExchangeState.Running && e.in_flight_writes
  | none => false

/-- `SessionService::set_exchange_as_cancelled`: load the session (a load
failure is an error here, unlike undo/feedback), compute whether a
cancellation signal must be sent, flip the status, save, and return the
signal flag. -/
def service_set_exchange_as_cancelled (store : Store)
    (storage_path exchange_id : String) :
    SvcResult (Store × Bool) :=
  match load_from_storage store storage_path with
  | .ioError => .error .IOError
  | .panics => .panics
  | .ok session =>
    let send_cancellation_signal := session.has_running_code_edits exchange_id
    let session2 := session.set_exchange_as_cancelled exchange_id
    .ok (saveStore store session2, send_cancellation_signal)

/-- `SessionService::handle_session_undo`.  `undoFn` stands for
`Session::undo_including_exchange_id` (session/session.rs, not among the
sources); it returns the trimmed session plus the list of files it
restored from pre-edit snapshots.  A read failure returns `Ok` at once;
an undecodable session file panics inside `load_from_storage`. -/
def handle_session_undo
    (undoFn : Session → String → Except SymbolError (Session × List String))
    (store : Store) (exchange_id storage_path : String) :
    SvcResult (Store × List String) :=
  match load_from_storage store storage_path with
  | .ioError => .ok (store, [])
  | .panics => .panics
  | .ok session =>
    match undoFn session exchange_id with
    | .error e => .error e
    | .ok (session2, restored_files) =>
      .ok (saveStore store session2, restored_files)

/-- `SessionService::feedback_for_exchange`.  `reactFn` stands for
`Session::react_to_feedback` (not among the sources); the accepted-branch
follow-up (new exchange + diagnostics) happens after a successful load and
is absorbed into `reactFn` here.  A read failure returns `Ok` at once;
an undecodable session file panics inside `load_from_storage`. -/
def feedback_for_exchange
    (reactFn : Session → String → Option Nat → Bool → Except SymbolError Session)
    (store : Store) (exchange_id : String) (step_index : Option Nat)
    (accepted : Bool) (storage_path : String) :
    SvcResult Store :=
  match load_from_storage store storage_path with
  | .ioError => .ok store
  | .panics => .panics
  | .ok session =>
    match reactFn session exchange_id step_index accepted with
    | .error e => .error e
    | .ok session2 => .ok (saveStore store session2)

/-- Position in a document (chunking/text_document.rs is not among the
sources; `line()` is the accessor the selection check uses). -/
structure Position where
  line : Nat
  character : Nat
deriving DecidableEq

/-- A range between two positions (`Range::new(start, end)`). -/
structure Range where
  start_position : Position
  end_position : Position
deriving DecidableEq

/-- Follows the spec's words: a range is empty when it selects nothing,
i.e. its start and end coincide. -/
def Range.isEmptyRange (r : Range) : Bool :=
  r.start_position == r.end_position

/-- Variable kinds of the user context (user_context/types.rs is not among
the sources; `is_selection` distinguishes the `Selection` kind). -/
inductive VariableKind where
  | File
  | CodeSymbol
  | Selection
deriving DecidableEq

/-- Modelled from the spec: a user-context variable — "a list of selected
variables each with a range and fs-path" — with the fields
`code_edit_anchored` reads. -/
structure VariableInformation where
  variable_kind : VariableKind
  start_position : Position
  end_position : Position
  fs_file_path : String
  content : String
deriving DecidableEq

/-- `VariableInformation::is_selection`. -/
def VariableInformation.is_selection (v : VariableInformation) : Bool :=
  v.variable_kind == VariableKind.Selection

/-- The user context as `code_edit_anchored` consumes it. -/
structure UserContext where
  vars : List VariableInformation
deriving DecidableEq

/-- The selection filter of `code_edit_anchored` (service.rs lines
414–417): the first variable that is a selection and whose start and end
lines are not both zero. -/
def anchored_selection_variable (user_context : UserContext) :
    Option VariableInformation :=
  user_context.vars.find? (fun v =>
    v.is_selection &&
      !(v.start_position.line == 0 && v.end_position.line == 0))

/-- Observable effects of `code_edit_anchored` relevant to claim C8. -/
inductive AnchoredEffect where
  | openFile (fs_file_path : String)
  | createExchange
  | saveSession
deriving DecidableEq

/-- Result of a `code_edit_anchored` call: the effects it performed and
the pre-edit capture (file path, selection range, content in range). -/
structure AnchoredRun where
  effects : List AnchoredEffect
  captured : Option (String × Range × String)
deriving DecidableEq

/-- `SessionService::code_edit_anchored`, abstracted over the editor
(`fileContent` = what `file_open` returns for a path, `contentInRange` =
`content_in_range` on the opened file).  With no qualifying selection
variable the function returns `Ok(())` before any effect; otherwise it
opens the selected file, captures the content in the selection range
(falling back to the variable's own content), creates the edit exchange,
performs the edit and saves. -/
def code_edit_anchored (fileContent : String → String)
    (contentInRange : String → Range → Option String)
    (user_context : UserContext) : AnchoredRun :=
  match anchored_selection_variable user_context with
  | none => { effects := [], captured := none }
  | some v =>
    let selection_range : Range :=
      { start_position := v.start_position, end_position := v.end_position }
    let file_content := fileContent v.fs_file_path
    let file_content_in_range :=
      (contentInRange file_content selection_range).getD v.content
    { effects := [.openFile v.fs_file_path, .createExchange, .saveSession]
      captured := some (v.fs_file_path, selection_range, file_content_in_range) }

/-- Concrete data: a selection variable whose range is empty (start = end
at line 5, column 2) — it selects nothing, yet its lines are not both
zero. -/
def emptySelectionVar : VariableInformation :=
  { variable_kind := VariableKind.Selection
    start_position := { line := 5, character := 2 }
    end_position := { line := 5, character := 2 }
    fs_file_path := "src/main.rs"
    content := "let x = 1;" }

/-- A user context containing only the empty selection above. -/
def emptySelectionContext : UserContext :=
  { vars := [emptySelectionVar] }

/-- Concrete data: a running exchange with in-flight code-edit writes. -/
def runningExchange : Exchange :=
  { exchange_id := "e1", state := ExchangeState.Running,
    in_flight_writes := true }

/-- Concrete data: a session holding the running exchange. -/
def sampleSession : Session :=
  { session_id := "s1", exchanges := [runningExchange],
    storage_path := "/sessions/s1.json" }

/-- Concrete data: a store with the sample session at its storage path
and nothing readable elsewhere. -/
def sampleStore : Store :=
  fun p =>
    if p = "/sessions/s1.json" then StoredFile.session sampleSession
    else StoredFile.unreadable

/-- Concrete stand-in for `serde_json::to_string` with nonempty output. -/
def sampleSerialize : Session → String :=
  fun s => "json:" ++ s.session_id

end SessionSvc

/- ## Theorems.  Helper lemmas come first, then one theorem per claim
(plus its witness or counterexample where required). -/

namespace OpenRouter

theorem chainEnd_concat (l : List LLMClientCompletionResponse) :
    ∀ (p : String) (r : LLMClientCompletionResponse),
      chainEnd p (l ++ [r]) = r.answer_up_until_now := by
  induction l with
  | nil => intro p r; rfl
  | cons x xs ih => intro p r; exact ih x.answer_up_until_now r

theorem deltaChain_concat (l : List LLMClientCompletionResponse) :
    ∀ (p : String) (r : LLMClientCompletionResponse) (d : String),
      deltaChain p l → r.delta = some d →
      r.answer_up_until_now = chainEnd p l ++ d → deltaChain p (l ++ [r]) := by
  induction l with
  | nil =>
    intro p r d _ hd ha
    exact ⟨⟨d, hd, ha⟩, trivial⟩
  | cons x xs ih =>
    intro p r d hchain hd ha
    exact ⟨hchain.1, ih x.answer_up_until_now r d hchain.2 hd ha⟩

theorem deltaChain_chain (l : List LLMClientCompletionResponse) :
    ∀ p, deltaChain p l →
      List.Chain' (fun a b => ∃ t, b.delta = some t ∧
        b.answer_up_until_now = a.answer_up_until_now ++ t) l := by
  induction l with
  | nil => intro p _; exact List.chain'_nil
  | cons x xs ih =>
    intro p h
    cases xs with
    | nil => exact List.chain'_singleton x
    | cons y ys =>
      rw [List.chain'_cons]
      exact ⟨h.2.1, ih x.answer_up_until_now h.2⟩

theorem streamCompletionStep_inv (st st' : StreamState) (event : SSEEvent)
    (h : streamCompletionStep st event = .next st') (hinv : streamInv st) :
    streamInv st' := by
  cases event with
  | transportError m =>
    simp only [streamCompletionStep, StreamOutcome.next.injEq] at h
    exact h ▸ hinv
  | ev data =>
    cases data with
    | done =>
      simp only [streamCompletionStep, StreamOutcome.next.injEq] at h
      exact h ▸ hinv
    | malformed raw => simp [streamCompletionStep] at h
    | json value =>
      rw [streamCompletionStep] at h
      cases hc : value.choices.head? with
      | none => rw [hc] at h; simp at h
      | some first_choice =>
        simp only [hc] at h
        cases hcont : first_choice.delta.content with
        | none =>
          simp only [hcont, StreamOutcome.next.injEq] at h
          exact h ▸ hinv
        | some content =>
          simp only [hcont, StreamOutcome.next.injEq] at h
          subst h
          refine ⟨?_, ?_⟩
          · exact deltaChain_concat st.sent "" _ content hinv.1 rfl
              (by rw [hinv.2])
          · exact (chainEnd_concat st.sent "" _).symm ▸ hinv.2 ▸ rfl

theorem runStream_inv (events : List SSEEvent) :
    ∀ st st', runStream streamCompletionStep st events = .next st' →
      streamInv st → streamInv st' := by
  induction events with
  | nil =>
    intro st st' h hinv
    rw [runStream] at h
    simp only [StreamOutcome.next.injEq] at h
    exact h ▸ hinv
  | cons e rest ih =>
    intro st st' h hinv
    rw [runStream] at h
    cases hstep : streamCompletionStep st e with
    | next st2 =>
      rw [hstep] at h
      exact ih st2 st' h (streamCompletionStep_inv st st2 e hstep hinv)
    | fail er => rw [hstep] at h; simp at h
    | panics => rw [hstep] at h; simp at h

/-- C6: for every streamed completion that finishes, the emitted responses
form a delta chain from the empty string — the deltas appear in the order
the chunks were received, each response's `answer_up_until_now` equals the
previous cumulative text concatenated with that response's delta, and
consecutively each cumulative text is a prefix of the next (it never
shrinks). -/
theorem stream_completion_monotonic_cumulative
    (api_key : LLMProviderAPIKeys) (request : LLMClientCompletionRequest)
    (events : List SSEEvent) (final_text : String)
    (sent : List LLMClientCompletionResponse)
    (h : stream_completion api_key request events = .next (final_text, sent)) :
    deltaChain "" sent ∧
      List.Chain' (fun a b => ∃ t, b.delta = some t ∧
        b.answer_up_until_now = a.answer_up_until_now ++ t) sent := by
  rw [stream_completion] at h
  cases hm : OpenRouterClient.model request.model with
  | none => rw [hm] at h; simp at h
  | some mname =>
    rw [hm] at h
    cases hk : generate_auth_key api_key with
    | error e => rw [hk] at h; simp at h
    | ok k =>
      rw [hk] at h
      cases hr : runStream streamCompletionStep ⟨"", []⟩ events with
      | next st =>
        rw [hr] at h
        simp only [StreamOutcome.next.injEq, Prod.mk.injEq] at h
        have hinv : streamInv st := runStream_inv events ⟨"", []⟩ st hr ⟨trivial, rfl⟩
        rw [← h.2]
        exact ⟨hinv.1, deltaChain_chain st.sent "" hinv.1⟩
      | fail e => rw [hr] at h; simp at h
      | panics => rw [hr] at h; simp at h

/-- Witness for C6 at a concrete two-chunk stream. -/
theorem stream_completion_monotonic_cumulative_witness :
    stream_completion (.OpenRouter "key") ⟨.Gpt4, []⟩
        [contentEvent "Hel", contentEvent "lo"] =
      .next ("Hello",
        [{ answer_up_until_now := "Hel", delta := some "Hel", model := "m" },
         { answer_up_until_now := "Hello", delta := some "lo", model := "m" }]) ∧
      (deltaChain ""
        [{ answer_up_until_now := "Hel", delta := some "Hel", model := "m" },
         { answer_up_until_now := "Hello", delta := some "lo", model := "m" }] ∧
       List.Chain' (fun a b : LLMClientCompletionResponse => ∃ t, b.delta = some t ∧
          b.answer_up_until_now = a.answer_up_until_now ++ t)
        [{ answer_up_until_now := "Hel", delta := some "Hel", model := "m" },
         { answer_up_until_now := "Hello", delta := some "lo", model := "m" }]) :=
  ⟨by decide,
   stream_completion_monotonic_cumulative (.OpenRouter "key") ⟨.Gpt4, []⟩
     [contentEvent "Hel", contentEvent "lo"] "Hello" _ (by decide)⟩

end OpenRouter

namespace OpenRouter

/-- C9: a completion request whose model identifier has no OpenRouter
model-name mapping fails with `WrongAPIKeyType` in both
`stream_completion` and `stream_completion_with_tool`, for every api key
(including a valid OpenRouter key) and independently of the network (the
event list is never consulted): the error comes from the model-mapping
miss, not only from an api-key-variant mismatch. -/
theorem model_miss_wrong_api_key_type (m : LLMType)
    (hmiss : OpenRouterClient.model m = none)
    (api_key : LLMProviderAPIKeys) (messages : List (String × String))
    (events : List SSEEvent) :
    stream_completion api_key ⟨m, messages⟩ events = .fail .WrongAPIKeyType ∧
      stream_completion_with_tool api_key ⟨m, messages⟩ events =
        .fail .WrongAPIKeyType := by
  constructor
  · rw [stream_completion]; rw [show (⟨m, messages⟩ : LLMClientCompletionRequest).model = m from rfl, hmiss]
  · rw [stream_completion_with_tool]; rw [show (⟨m, messages⟩ : LLMClientCompletionRequest).model = m from rfl, hmiss]

/-- Witness for C9: `GeminiPro` has no OpenRouter mapping; with a valid
OpenRouter key and a live content stream both entry points still fail with
`WrongAPIKeyType`. -/
theorem model_miss_wrong_api_key_type_witness :
    OpenRouterClient.model .GeminiPro = none ∧
      (stream_completion (.OpenRouter "valid-openrouter-key")
          ⟨.GeminiPro, []⟩ [contentEvent "hi"] = .fail .WrongAPIKeyType ∧
        stream_completion_with_tool (.OpenRouter "valid-openrouter-key")
          ⟨.GeminiPro, []⟩ [contentEvent "hi"] = .fail .WrongAPIKeyType) :=
  ⟨by decide,
   model_miss_wrong_api_key_type .GeminiPro (by decide)
     (.OpenRouter "valid-openrouter-key") [] [contentEvent "hi"]⟩

/-- C3 counterexample: a single event whose payload fails JSON decoding
aborts the whole completion with `DeserializationError` — the following
good chunk is never consumed — whereas the same stream with a
transport-level error event in that position completes and delivers the
content.  This refutes "a single event whose payload fails to decode as
JSON is logged and skipped while the stream continues". -/
theorem malformed_event_aborts_counterexample :
    stream_completion (.OpenRouter "key") ⟨.Gpt4, []⟩
        [.ev (.malformed "oops"), contentEvent "hi"] =
      .fail .DeserializationError ∧
      stream_completion (.OpenRouter "key") ⟨.Gpt4, []⟩
          [.transportError "oops", contentEvent "hi"] =
        .next ("hi",
          [{ answer_up_until_now := "hi", delta := some "hi", model := "m" }]) :=
  ⟨by decide, by decide⟩

/-- C3 amended: in both streaming entry points the `[DONE]` sentinel is
ignored and a transport-level event error is logged and skipped (the
stream continues), but an event whose payload fails to decode as JSON
aborts the completion with `DeserializationError`. -/
theorem sse_event_error_handling (m raw : String) (evs : List SSEEvent)
    (st : StreamState) (stT : ToolStreamState) :
    runStream streamCompletionStep st (.transportError m :: evs) =
        runStream streamCompletionStep st evs ∧
      runStream streamCompletionStep st (.ev .done :: evs) =
        runStream streamCompletionStep st evs ∧
      runStream streamCompletionStep st (.ev (.malformed raw) :: evs) =
        .fail .DeserializationError ∧
      runStream streamWithToolStep stT (.transportError m :: evs) =
        runStream streamWithToolStep stT evs ∧
      runStream streamWithToolStep stT (.ev .done :: evs) =
        runStream streamWithToolStep stT evs ∧
      runStream streamWithToolStep stT (.ev (.malformed raw) :: evs) =
        .fail .DeserializationError :=
  ⟨rfl, rfl, rfl, rfl, rfl, rfl⟩

end OpenRouter

namespace OpenRouter

theorem concatPieces_append (l1 l2 : List (Int × String)) :
    concatPieces (l1 ++ l2) = concatPieces l1 ++ concatPieces l2 := by
  induction l1 with
  | nil => exact (String.empty_append _).symm
  | cons p l ih =>
    show p.2 ++ concatPieces (l ++ l2) = (p.2 ++ concatPieces l) ++ concatPieces l2
    rw [ih, String.append_assoc]

theorem toolCallPieces_append (l1 l2 : List ToolCall) :
    toolCallPieces (l1 ++ l2) = toolCallPieces l1 ++ toolCallPieces l2 := by
  induction l1 with
  | nil => rfl
  | cons tc l ih =>
    obtain ⟨idx, tid, ctype, fdet⟩ := tc
    cases fdet with
    | none => exact ih
    | some fd =>
      obtain ⟨fname, fargs⟩ := fd
      cases fargs with
      | none => exact ih
      | some a =>
        show (idx, a) :: toolCallPieces (l ++ l2) =
          ((idx, a) :: toolCallPieces l) ++ toolCallPieces l2
        rw [List.cons_append, ih]

theorem concatPieces_single_some (idx : Int) (tid ctype fname : Option String)
    (a : String) :
    concatPieces (toolCallPieces
      [{ index := idx, id := tid, call_type := ctype,
         function_details := some { name := fname, arguments := some a } }]) = a := by
  show a ++ "" = a
  exact String.append_empty a

theorem applyToolCall_spec (st : ToolStreamState) (tc : ToolCall) :
    (applyToolCall st tc).tool_use_indication = st.tool_use_indication ∧
      (applyToolCall st tc).running_tool_input =
        st.running_tool_input ++ concatPieces (toolCallPieces [tc]) := by
  obtain ⟨idx, tid, ctype, fdet⟩ := tc
  cases fdet with
  | none => exact ⟨rfl, (String.append_empty _).symm⟩
  | some fd =>
    obtain ⟨fname, fargs⟩ := fd
    cases tid <;> cases fname <;> cases fargs <;> refine ⟨rfl, ?_⟩ <;>
      first
      | exact (String.append_empty _).symm
      | (rw [concatPieces_single_some]; rfl)

end OpenRouter

namespace OpenRouter

theorem foldl_applyToolCall (tool_calls : List ToolCall) :
    ∀ st : ToolStreamState,
      ((tool_calls.foldl applyToolCall st).tool_use_indication =
        st.tool_use_indication) ∧
      ((tool_calls.foldl applyToolCall st).running_tool_input =
        st.running_tool_input ++ concatPieces (toolCallPieces tool_calls)) := by
  induction tool_calls with
  | nil => intro st; exact ⟨rfl, (String.append_empty _).symm⟩
  | cons tc rest ih =>
    intro st
    have h1 := applyToolCall_spec st tc
    have h2 := ih (applyToolCall st tc)
    rw [List.foldl_cons]
    refine ⟨by rw [h2.1, h1.1], ?_⟩
    rw [h2.2, h1.2, String.append_assoc, ← concatPieces_append,
      ← toolCallPieces_append, List.singleton_append]

theorem streamWithToolStep_noFinish (st st' : ToolStreamState) (e : SSEEvent)
    (hnf : noToolUseFinish e = true) (h : streamWithToolStep st e = .next st') :
    st'.tool_use_indication = st.tool_use_indication ∧
      st'.running_tool_input =
        st.running_tool_input ++ concatPieces (eventArgumentPieces e) := by
  cases e with
  | transportError m =>
    simp only [streamWithToolStep, StreamOutcome.next.injEq] at h
    subst h
    exact ⟨rfl, (String.append_empty _).symm⟩
  | ev data =>
    cases data with
    | done =>
      simp only [streamWithToolStep, StreamOutcome.next.injEq] at h
      subst h
      exact ⟨rfl, (String.append_empty _).symm⟩
    | malformed raw => simp [streamWithToolStep] at h
    | json value =>
      rw [streamWithToolStep] at h
      cases hc : value.choices.head? with
      | none => rw [hc] at h; simp at h
      | some first_choice =>
        simp only [hc] at h
        rw [eventArgumentPieces]
        simp only [hc]
        cases hcont : first_choice.delta.content with
        | none =>
          simp only [hcont] at h
          cases hfin : first_choice.finish_reason with
          | none =>
            simp only [hfin] at h
            cases htc : first_choice.delta.tool_calls with
            | none =>
              simp only [htc, StreamOutcome.next.injEq] at h
              subst h
              exact ⟨rfl, (String.append_empty _).symm⟩
            | some tool_calls =>
              simp only [htc, StreamOutcome.next.injEq] at h
              subst h
              exact foldl_applyToolCall tool_calls st
          | some fr =>
            have hne : fr ≠ "tool_use" := by
              rw [noToolUseFinish] at hnf
              simp only [hc, hfin] at hnf
              simpa using hnf
            simp only [hfin, beq_iff_eq] at h
            rw [if_neg hne] at h
            cases htc : first_choice.delta.tool_calls with
            | none =>
              simp only [htc, StreamOutcome.next.injEq] at h
              subst h
              exact ⟨rfl, (String.append_empty _).symm⟩
            | some tool_calls =>
              simp only [htc, StreamOutcome.next.injEq] at h
              subst h
              exact foldl_applyToolCall tool_calls st
        | some content =>
          simp only [hcont] at h
          cases hfin : first_choice.finish_reason with
          | none =>
            simp only [hfin] at h
            cases htc : first_choice.delta.tool_calls with
            | none =>
              simp only [htc, StreamOutcome.next.injEq] at h
              subst h
              exact ⟨rfl, (String.append_empty _).symm⟩
            | some tool_calls =>
              simp only [htc, StreamOutcome.next.injEq] at h
              subst h
              exact foldl_applyToolCall tool_calls _
          | some fr =>
            have hne : fr ≠ "tool_use" := by
              rw [noToolUseFinish] at hnf
              simp only [hc, hfin] at hnf
              simpa using hnf
            simp only [hfin, beq_iff_eq] at h
            rw [if_neg hne] at h
            cases htc : first_choice.delta.tool_calls with
            | none =>
              simp only [htc, StreamOutcome.next.injEq] at h
              subst h
              exact ⟨rfl, (String.append_empty _).symm⟩
            | some tool_calls =>
              simp only [htc, StreamOutcome.next.injEq] at h
              subst h
              exact foldl_applyToolCall tool_calls _

end OpenRouter

namespace OpenRouter

theorem runStream_append {σ : Type} (step : σ → SSEEvent → StreamOutcome σ)
    (l1 l2 : List SSEEvent) :
    ∀ st st1, runStream step st l1 = .next st1 →
      runStream step st (l1 ++ l2) = runStream step st1 l2 := by
  induction l1 with
  | nil =>
    intro st st1 h
    rw [runStream] at h
    simp only [StreamOutcome.next.injEq] at h
    subst h
    rfl
  | cons e rest ih =>
    intro st st1 h
    rw [runStream] at h
    rw [List.cons_append, runStream]
    cases hstep : step st e with
    | next st2 =>
      rw [hstep] at h
      exact ih st2 st1 h
    | fail er => rw [hstep] at h; simp at h
    | panics => rw [hstep] at h; simp at h

theorem runStream_withTool_noFinish (evs : List SSEEvent) :
    ∀ st st', (∀ e ∈ evs, noToolUseFinish e = true) →
      runStream streamWithToolStep st evs = .next st' →
      st'.tool_use_indication = st.tool_use_indication ∧
        st'.running_tool_input = st.running_tool_input ++ arrivalArguments evs := by
  induction evs with
  | nil =>
    intro st st' _ h
    rw [runStream] at h
    simp only [StreamOutcome.next.injEq] at h
    subst h
    exact ⟨rfl, (String.append_empty _).symm⟩
  | cons e rest ih =>
    intro st st' hall h
    rw [runStream] at h
    cases hstep : streamWithToolStep st e with
    | next st2 =>
      rw [hstep] at h
      have h1 := streamWithToolStep_noFinish st st2 e (hall e (by simp)) hstep
      have h2 := ih st2 st' (fun x hx => hall x (by simp [hx])) h
      refine ⟨by rw [h2.1, h1.1], ?_⟩
      rw [h2.2, h1.2, String.append_assoc]
      have harr : arrivalArguments (e :: rest) =
          concatPieces (eventArgumentPieces e) ++ arrivalArguments rest := by
        rw [arrivalArguments, arrivalArguments, argumentPieces, argumentPieces,
          List.map_cons, List.flatten_cons, concatPieces_append]
      rw [harr]
    | fail er => rw [hstep] at h; simp at h
    | panics => rw [hstep] at h; simp at h

/-- C1 amended: in `stream_completion_with_tool`, no tool-call is emitted
before a chunk signals `finish_reason = "tool_use"` (over a finish-free
stream the returned tool-call list is empty), and the tool-call delivered
at such a chunk carries as arguments the concatenation of all argument
pieces received so far **in arrival order** — the provider-supplied
`index` is read into `_tool_call_index` and ignored, so pieces are not
reordered by ascending index. -/
theorem tool_call_aggregation_arrival_order (key : String)
    (request : LLMClientCompletionRequest) (mname : String)
    (hm : OpenRouterClient.model request.model = some mname)
    (evs : List SSEEvent) (hall : ∀ e ∈ evs, noToolUseFinish e = true)
    (st' : ToolStreamState)
    (hrun : runStream streamWithToolStep toolInitState evs = .next st') :
    stream_completion_with_tool (.OpenRouter key) request evs =
        .next (st'.buffered_stream, []) ∧
      stream_completion_with_tool (.OpenRouter key) request
          (evs ++ [finishToolUseEvent]) =
        .next (st'.buffered_stream,
          match st'.current_tool_use, st'.current_tool_use_id with
          | some name, some tool_id => [(name, tool_id, arrivalArguments evs)]
          | _, _ => []) := by
  obtain ⟨buffered, snt, tui, cu, cui, rti⟩ := st'
  have hinv := runStream_withTool_noFinish evs toolInitState _ hall hrun
  have h1 : tui = [] := hinv.1
  have h2 : rti = arrivalArguments evs := hinv.2.trans (String.empty_append _)
  subst h1
  subst h2
  constructor
  · rw [stream_completion_with_tool, hm]
    show (match runStream streamWithToolStep toolInitState evs with
      | StreamOutcome.next st =>
        StreamOutcome.next (st.buffered_stream, st.tool_use_indication)
      | StreamOutcome.fail e => StreamOutcome.fail e
      | StreamOutcome.panics => StreamOutcome.panics) = _
    rw [hrun]
  · rw [stream_completion_with_tool, hm]
    show (match runStream streamWithToolStep toolInitState
        (evs ++ [finishToolUseEvent]) with
      | StreamOutcome.next st =>
        StreamOutcome.next (st.buffered_stream, st.tool_use_indication)
      | StreamOutcome.fail e => StreamOutcome.fail e
      | StreamOutcome.panics => StreamOutcome.panics) = _
    rw [runStream_append streamWithToolStep evs [finishToolUseEvent]
      toolInitState _ hrun]
    cases cu <;> cases cui <;> rfl

end OpenRouter

namespace OpenRouter

/-- C1 counterexample: with two argument pieces arriving as index 1
("B") then index 0 ("A"), the tool-call delivered at
`finish_reason = "tool_use"` carries "BA" (arrival order), whereas the
claimed merge by ascending provider-supplied index gives "AB". -/
theorem tool_call_index_merge_counterexample :
    stream_completion_with_tool (.OpenRouter "key") ⟨.Gpt4, []⟩
        outOfOrderIndexEvents = .next ("", [("f", "t", "BA")]) ∧
      specMergedArguments outOfOrderIndexEvents = "AB" ∧
      ("BA" : String) ≠ "AB" :=
  ⟨by decide, by decide, by decide⟩

/-- Witness for C1 (amended) at the out-of-order two-piece stream. -/
theorem tool_call_aggregation_arrival_order_witness :
    (∀ e ∈ ([toolChunk 1 (some "t") (some "f") (some "B"),
             toolChunk 0 none none (some "A")] : List SSEEvent),
        noToolUseFinish e = true) ∧
      runStream streamWithToolStep toolInitState
          [toolChunk 1 (some "t") (some "f") (some "B"),
           toolChunk 0 none none (some "A")] =
        .next { buffered_stream := "", sent := [], tool_use_indication := [],
                current_tool_use := some "f", current_tool_use_id := some "t",
                running_tool_input := "BA" } ∧
      (stream_completion_with_tool (.OpenRouter "key") ⟨.Gpt4, []⟩
          [toolChunk 1 (some "t") (some "f") (some "B"),
           toolChunk 0 none none (some "A")] = .next ("", []) ∧
        stream_completion_with_tool (.OpenRouter "key") ⟨.Gpt4, []⟩
            ([toolChunk 1 (some "t") (some "f") (some "B"),
              toolChunk 0 none none (some "A")] ++ [finishToolUseEvent]) =
          .next ("", [("f", "t",
            arrivalArguments
              [toolChunk 1 (some "t") (some "f") (some "B"),
               toolChunk 0 none none (some "A")])])) :=
  ⟨by decide, by decide,
   tool_call_aggregation_arrival_order "key" ⟨.Gpt4, []⟩ "openai/gpt-4" rfl
     [toolChunk 1 (some "t") (some "f") (some "B"),
      toolChunk 0 none none (some "A")] (by decide)
     { buffered_stream := "", sent := [], tool_use_indication := [],
       current_tool_use := some "f", current_tool_use_id := some "t",
       running_tool_input := "BA" } (by decide)⟩

end OpenRouter

namespace SearchFile

theorem readLinesBounded_take :
    ∀ (lines : List String) (line_count : Nat) (output : String),
      line_count ≤ MAX_RESULTS * 4 →
      readLinesBounded lines line_count output =
        output ++ joinedLines (lines.take (MAX_RESULTS * 4 - line_count)) := by
  intro lines
  induction lines with
  | nil =>
    intro line_count output _
    rw [readLinesBounded, List.take_nil]
    exact (String.append_empty output).symm
  | cons line rest ih =>
    intro line_count output hle
    rw [readLinesBounded]
    by_cases hge : line_count ≥ MAX_RESULTS * 4
    · have heq : MAX_RESULTS * 4 - line_count = 0 := by omega
      rw [if_pos hge, heq, List.take_zero]
      exact (String.append_empty output).symm
    · have hlt : line_count < MAX_RESULTS * 4 := by omega
      have hsub : MAX_RESULTS * 4 - line_count =
          (MAX_RESULTS * 4 - (line_count + 1)) + 1 := by omega
      rw [if_neg hge, ih (line_count + 1) (output ++ line ++ "\n") (by omega),
        hsub, List.take_succ_cons]
      simp only [joinedLines, List.map_cons, List.foldr_cons, String.append_assoc]

/-- C4 amended: for every ripgrep output, the invocation succeeds (never
an error) and the formatted response is exactly the first
`MAX_RESULTS * 4 = 1000` stdout lines, each newline-terminated — the
output is bounded to 1000 lines and anything beyond is truncated
*silently*, with no truncation marker appended. -/
theorem search_invoke_truncates_silently (ripgrep_stdout_lines : List String) :
    search_invoke ripgrep_stdout_lines =
      .ok { formatted_response :=
        joinedLines (ripgrep_stdout_lines.take (MAX_RESULTS * 4)) } := by
  rw [search_invoke]
  have h := readLinesBounded_take ripgrep_stdout_lines 0 "" (Nat.zero_le _)
  rw [Nat.sub_zero] at h
  rw [h, String.empty_append]

/-- C4 counterexample: on 1001 one-character lines the result equals the
result on exactly 1000 such lines — the first 1000 lines with nothing
appended.  No truncation marker exists, refuting "truncated with a marker
appended"; the invocation still returns Ok. -/
theorem search_truncation_no_marker_counterexample :
    search_invoke (List.replicate 1001 "m") =
        .ok { formatted_response := joinedLines (List.replicate 1000 "m") } ∧
      search_invoke (List.replicate 1000 "m") =
        .ok { formatted_response := joinedLines (List.replicate 1000 "m") } := by
  constructor
  · have h := readLinesBounded_take (List.replicate 1001 "m") 0 "" (Nat.zero_le _)
    rw [Nat.sub_zero] at h
    rw [search_invoke, h, String.empty_append, List.take_replicate]
    norm_num [MAX_RESULTS]
  · have h := readLinesBounded_take (List.replicate 1000 "m") 0 "" (Nat.zero_le _)
    rw [Nat.sub_zero] at h
    rw [search_invoke, h, String.empty_append, List.take_replicate]
    norm_num [MAX_RESULTS]

end SearchFile

namespace ToolAgent

theorem tagMatchWith_mem :
    ∀ (tags : List String) (cs : List Char) (t content : String)
      (rest : List Char),
      tagMatchWith tags cs = some (t, content, rest) → t ∈ tags := by
  intro tags
  induction tags with
  | nil => intro cs t content rest h; simp [tagMatchWith] at h
  | cons tag tags ih =>
    intro cs t content rest h
    rw [tagMatchWith] at h
    cases hopen : dropLeading (openMarker tag) cs with
    | none =>
      simp only [hopen] at h
      exact List.mem_cons_of_mem _ (ih cs t content rest h)
    | some afterOpen =>
      simp only [hopen] at h
      cases hsplit : splitAtMarker (closeMarker tag) afterOpen with
      | none =>
        simp only [hsplit] at h
        exact List.mem_cons_of_mem _ (ih cs t content rest h)
      | some pair =>
        obtain ⟨pre, post⟩ := pair
        simp only [hsplit, Option.some.injEq, Prod.mk.injEq] at h
        rw [← h.1]
        exact List.mem_cons_self _ _

theorem scanGo_succ (fuel : Nat) (cs : List Char) :
    scanGo (fuel + 1) cs =
      match tagMatchWith toolTags cs with
      | some (tag, content, rest) => (tag, content) :: scanGo fuel rest
      | none =>
        match cs with
        | [] => []
        | _ :: cs2 => scanGo fuel cs2 := rfl

theorem scanGo_tags_mem :
    ∀ (fuel : Nat) (cs : List Char) (c : String × String),
      c ∈ scanGo fuel cs → c.1 ∈ toolTags := by
  intro fuel
  induction fuel with
  | zero => intro cs c h; simp [scanGo] at h
  | succ fuel ih =>
    intro cs c h
    rw [scanGo_succ] at h
    cases hm : tagMatchWith toolTags cs with
    | some result =>
      obtain ⟨t, content, rest⟩ := result
      simp only [hm] at h
      rcases List.mem_cons.mp h with heq | htail
      · rw [heq]
        exact tagMatchWith_mem toolTags cs t content rest hm
      · exact ih rest c htail
    | none =>
      simp only [hm] at h
      cases cs with
      | nil => simp at h
      | cons x cs2 => exact ih cs2 c h

theorem getLast?_getD_shift :
    ∀ (l : List String) (a x : String),
      ((a :: l).getLast?).getD x = (l.getLast?).getD a := by
  intro l
  induction l with
  | nil => intro a x; rfl
  | cons b m ih =>
    intro a x
    rw [List.getLast?_cons_cons, ih b x, ih b a]

theorem parseCaptures_tool_head (P : ToolParsers) (input tag content : String)
    (rest : List (String × String)) (thinking : Option String)
    (htag : tag ∈ toolTags) (hne : tag ≠ "thinking") :
    parseCaptures P input ((tag, content) :: rest) thinking =
      match applyParser P tag content with
      | some tool_input => .success tool_input (thinking.getD "")
      | none => .failure input := by
  fin_cases htag
  · exact absurd rfl hne
  · cases hp : P.search_files content <;> simp [parseCaptures, applyParser, hp]
  · cases hp : P.code_edit_input content <;> simp [parseCaptures, applyParser, hp]
  · cases hp : P.list_files content <;> simp [parseCaptures, applyParser, hp]
  · cases hp : P.read_file content <;> simp [parseCaptures, applyParser, hp]
  · simp [parseCaptures, applyParser]
  · cases hp : P.execute_command content <;> simp [parseCaptures, applyParser, hp]
  · cases hp : P.attempt_completion content <;> simp [parseCaptures, applyParser, hp]
  · cases hp : P.ask_followup_question content <;> simp [parseCaptures, applyParser, hp]

end ToolAgent

namespace ToolAgent

theorem parseCaptures_spec (P : ToolParsers) (input : String) :
    ∀ (caps : List (String × String)) (thinking : Option String),
      (∀ c ∈ caps, c.1 ∈ toolTags) →
      ((caps.find? (fun c => c.1 != "thinking") = none →
        parseCaptures P input caps thinking = .failure input) ∧
      (∀ tag content,
        caps.find? (fun c => c.1 != "thinking") = some (tag, content) →
        parseCaptures P input caps thinking =
          match applyParser P tag content with
          | some tool_input =>
            .success tool_input
              ((((caps.takeWhile (fun c => c.1 == "thinking")).map
                  Prod.snd).getLast?).getD (thinking.getD ""))
          | none => .failure input)) := by
  intro caps
  induction caps with
  | nil =>
    intro thinking _
    refine ⟨fun _ => rfl, fun tag content h => ?_⟩
    simp at h
  | cons c rest ih =>
    intro thinking hmem
    obtain ⟨tag, content⟩ := c
    have hrest := fun t => ih t
      (fun x hx => hmem x (List.mem_cons_of_mem _ hx))
    by_cases ht : tag = "thinking"
    · subst ht
      have hpredf : (fun c : String × String => c.1 != "thinking")
          ("thinking", content) = false := rfl
      have hpredt : (fun c : String × String => c.1 == "thinking")
          ("thinking", content) = true := rfl
      have hrec : parseCaptures P input (("thinking", content) :: rest) thinking
          = parseCaptures P input rest (some content) := by
        rw [parseCaptures, if_pos rfl]
      constructor
      · intro hfind
        rw [List.find?_cons_of_neg rest (by simp)] at hfind
        rw [hrec]
        exact (hrest (some content)).1 hfind
      · intro tag2 content2 hfind
        rw [List.find?_cons_of_neg rest (by simp)] at hfind
        rw [hrec, (hrest (some content)).2 tag2 content2 hfind,
          @List.takeWhile_cons_of_pos (String × String)
            (fun c : String × String => c.1 == "thinking")
            ("thinking", content) rest rfl,
          List.map_cons, getLast?_getD_shift]
        rfl
    · have hmemhead : tag ∈ toolTags := hmem (tag, content) (List.mem_cons_self _ _)
      have hpredt : (fun c : String × String => c.1 != "thinking")
          ("" ++ tag, content) = true := by simpa using ht
      have hhead := parseCaptures_tool_head P input tag content rest thinking
        hmemhead ht
      constructor
      · intro hfind
        rw [List.find?_cons_of_pos rest (by simpa using ht)] at hfind
        simp at hfind
      · intro tag2 content2 hfind
        rw [List.find?_cons_of_pos rest (by simpa using ht)] at hfind
        simp only [Option.some.injEq, Prod.mk.injEq] at hfind
        obtain ⟨h1, h2⟩ := hfind
        subst h1
        subst h2
        rw [hhead, @List.takeWhile_cons_of_neg (String × String)
          (fun c : String × String => c.1 == "thinking")
          (tag, content) rest (by simpa using ht), List.map_nil]
        rfl

end ToolAgent

namespace ToolAgent

/-- C5 amended: the parser's regex scan is processed in order: `thinking`
captures accumulate the thinking text, and the **first** non-thinking tool
tag decides the outcome — if its body deserialises, `Success` with the
parsed input and the last preceding thinking text; if its body fails to
deserialise, `Failure` with the raw reply immediately (later tags that
would deserialise are not tried); if the reply has no tool tag at all,
`Failure` with the raw reply. -/
theorem parse_first_tool_tag_decides (P : ToolParsers) (input : String)
    (caps : List (String × String))
    (hscan : scanToolTags input.toList = caps) :
    (caps.find? (fun c => c.1 != "thinking") = none →
      parse_out_tool_input P input = .failure input) ∧
    (∀ tag content,
      caps.find? (fun c => c.1 != "thinking") = some (tag, content) →
      parse_out_tool_input P input =
        match applyParser P tag content with
        | some tool_input => .success tool_input (lastThinking caps)
        | none => .failure input) := by
  have hmem : ∀ c ∈ caps, c.1 ∈ toolTags := by
    rw [← hscan]
    intro c hc
    exact scanGo_tags_mem input.toList.length input.toList c hc
  have hbase : parse_out_tool_input P input = parseCaptures P input caps none := by
    rw [parse_out_tool_input, hscan]
  rw [hbase]
  exact parseCaptures_spec P input caps none hmem

/-- C5 counterexample: in the reply below the first tool tag
(`read_file`, body "x") fails to deserialise, while the following
`attempt_completion` tag would deserialise fine; the parser nevertheless
returns `Failure` with the raw reply — it does not return `Success` on the
first tool tag whose body deserialises, and `Failure` is not reserved for
replies where no tool tag parses. -/
theorem parse_failure_skips_no_tags_counterexample :
    parse_out_tool_input modelParsers badThenGoodReply =
        .failure badThenGoodReply ∧
      scanToolTags badThenGoodReply.toList =
        [("read_file", "x"),
         ("attempt_completion", "<result>done</result>")] ∧
      modelParsers.read_file "x" = none ∧
      modelParsers.attempt_completion "<result>done</result>" =
        some { result := "done" } :=
  ⟨by decide, by decide, by decide, by decide⟩

/-- Witness for C5 (amended) at a reply with a thinking tag followed by a
parsing tool tag. -/
theorem parse_first_tool_tag_decides_witness :
    scanToolTags "<thinking>plan</thinking><get_diagnostics></get_diagnostics>".toList =
        [("thinking", "plan"), ("get_diagnostics", "")] ∧
      ([("thinking", "plan"), ("get_diagnostics", "")].find?
          (fun c : String × String => c.1 != "thinking") =
        some ("get_diagnostics", "")) ∧
      parse_out_tool_input modelParsers
          "<thinking>plan</thinking><get_diagnostics></get_diagnostics>" =
        .success .lspDiagnostics "plan" :=
  ⟨by decide, by decide,
   (parse_first_tool_tag_decides modelParsers
      "<thinking>plan</thinking><get_diagnostics></get_diagnostics>"
      [("thinking", "plan"), ("get_diagnostics", "")] (by decide)).2
     "get_diagnostics" "" (by decide)⟩

end ToolAgent

namespace SessionSvc

/-- C2 counterexample: the operation list `save_to_storage` issues —
`File::create(storage_path)` then `write_all` — is not a
write-to-temporary-then-rename sequence for any choice of temporary. -/
theorem save_not_atomic_counterexample :
    ¬ isAtomicTempWrite sampleSession.storage_path
        (save_to_storage_ops sampleSerialize sampleSession) := by
  rintro ⟨tmp, data, hne, heq⟩
  simp [save_to_storage_ops] at heq

/-- C2 amended: after each state transition the full session is serialised
and written **directly** to the storage path — `File::create` (truncate)
followed by `write_all`, no temporary file and no rename — so a completed
save stores the serialised session, but an interrupted save (here: stopped
after the create) leaves a truncated, empty session file that differs from
any nonempty serialisation. -/
theorem save_to_storage_direct_write (serialize : Session → String)
    (s : Session) (fs : String → Option String)
    (h : serialize s ≠ "") :
    applyFsOps fs (save_to_storage_ops serialize s) s.storage_path =
        some (serialize s) ∧
      applyFsOps fs (List.take 1 (save_to_storage_ops serialize s))
          s.storage_path = some "" ∧
      (some "" : Option String) ≠ some (serialize s) ∧
      ¬ isAtomicTempWrite s.storage_path (save_to_storage_ops serialize s) := by
  refine ⟨?_, ?_, ?_, ?_⟩
  · simp [save_to_storage_ops, applyFsOps, applyFsOp]
  · simp [save_to_storage_ops, applyFsOps, applyFsOp]
  · intro hc
    exact h (Option.some.inj hc).symm
  · rintro ⟨tmp, data, hne, heq⟩
    simp [save_to_storage_ops] at heq

/-- Witness for C2 (amended) at a concrete session, serializer and
initial file system. -/
theorem save_to_storage_direct_write_witness :
    sampleSerialize sampleSession ≠ "" ∧
      (applyFsOps (fun _ => none)
          (save_to_storage_ops sampleSerialize sampleSession)
          sampleSession.storage_path = some (sampleSerialize sampleSession) ∧
        applyFsOps (fun _ => none)
            (List.take 1 (save_to_storage_ops sampleSerialize sampleSession))
            sampleSession.storage_path = some "" ∧
        (some "" : Option String) ≠ some (sampleSerialize sampleSession) ∧
        ¬ isAtomicTempWrite sampleSession.storage_path
          (save_to_storage_ops sampleSerialize sampleSession)) :=
  ⟨by decide,
   save_to_storage_direct_write sampleSerialize sampleSession
     (fun _ => none) (by decide)⟩

theorem set_cancelled_id (e : Exchange) :
    e.set_cancelled.exchange_id = e.exchange_id := by
  by_cases h : e.state = ExchangeState.Running <;>
    simp [Exchange.set_cancelled, h]

theorem set_cancelled_not_running (e : Exchange) :
    (e.set_cancelled.state == ExchangeState.Running) = false := by
  by_cases h : e.state = ExchangeState.Running <;>
    simp [Exchange.set_cancelled, h]

theorem set_cancelled_idem (e : Exchange) :
    e.set_cancelled.set_cancelled = e.set_cancelled := by
  by_cases h : e.state = ExchangeState.Running <;>
    simp [Exchange.set_cancelled, h]

theorem session_cancel_idem (s : Session) (exchange_id : String) :
    (s.set_exchange_as_cancelled exchange_id).set_exchange_as_cancelled
        exchange_id = s.set_exchange_as_cancelled exchange_id := by
  obtain ⟨sid, exchanges, path⟩ := s
  simp only [Session.set_exchange_as_cancelled, List.map_map, Session.mk.injEq,
    true_and, and_true]
  apply List.map_congr_left
  intro e _
  by_cases he : e.exchange_id = exchange_id
  · simp [Function.comp, he, set_cancelled_id, set_cancelled_idem]
  · simp [Function.comp, he]

theorem has_running_after_cancel (s : Session) (exchange_id : String) :
    (s.set_exchange_as_cancelled exchange_id).has_running_code_edits
      exchange_id = false := by
  obtain ⟨sid, exchanges, path⟩ := s
  rw [Session.set_exchange_as_cancelled, Session.has_running_code_edits]
  simp only
  induction exchanges with
  | nil => rfl
  | cons e rest ih =>
    rw [List.map_cons]
    by_cases he : e.exchange_id = exchange_id
    · rw [if_pos he,
        List.find?_cons_of_pos _ (by simp [set_cancelled_id, he])]
      simp [set_cancelled_not_running]
    · rw [if_neg he, List.find?_cons_of_neg _ (by simp [he])]
      exact ih

theorem saveStore_idem (store : Store) (s : Session) :
    saveStore (saveStore store s) s = saveStore store s := by
  funext p
  by_cases h : p = s.storage_path <;> simp [saveStore, h]

end SessionSvc

namespace SessionSvc

/-- C7: cancelling an exchange is idempotent — the first call flips the
exchange and returns whether a cancellation signal must be sent; the
second call leaves the saved session unchanged (calling twice yields the
same terminal exchange state as calling once) and returns `false` for the
signal; an exchange's status moves to `Cancelled` only from `Running` (any
exchange not in `Running` is untouched by the flip). -/
theorem cancel_exchange_idempotent (store : Store)
    (storage_path exchange_id : String) (s : Session)
    (hload : store storage_path = StoredFile.session s)
    (hpath : s.storage_path = storage_path) :
    service_set_exchange_as_cancelled store storage_path exchange_id =
        .ok (saveStore store (s.set_exchange_as_cancelled exchange_id),
             s.has_running_code_edits exchange_id) ∧
      service_set_exchange_as_cancelled
          (saveStore store (s.set_exchange_as_cancelled exchange_id))
          storage_path exchange_id =
        .ok (saveStore store (s.set_exchange_as_cancelled exchange_id),
             false) ∧
      (∀ e : Exchange, e.state ≠ ExchangeState.Running →
        e.set_cancelled = e) ∧
      (∀ e : Exchange, e.set_cancelled.state = ExchangeState.Cancelled →
        e.state = ExchangeState.Running ∨
          e.state = ExchangeState.Cancelled) := by
  have hpath2 : (s.set_exchange_as_cancelled exchange_id).storage_path =
      storage_path := hpath
  refine ⟨?_, ?_, ?_, ?_⟩
  · simp only [service_set_exchange_as_cancelled, load_from_storage, hload]
  · have hload2 : saveStore store (s.set_exchange_as_cancelled exchange_id)
        storage_path =
        StoredFile.session (s.set_exchange_as_cancelled exchange_id) := by
      rw [saveStore, if_pos hpath2.symm]
    simp only [service_set_exchange_as_cancelled, load_from_storage, hload2,
      has_running_after_cancel, session_cancel_idem, saveStore_idem]
  · intro e he
    rw [Exchange.set_cancelled, if_neg he]
  · intro e he
    by_cases hr : e.state = ExchangeState.Running
    · exact Or.inl hr
    · right
      rw [Exchange.set_cancelled, if_neg hr] at he
      exact he

/-- Witness for C7 at a store holding one session with a running
exchange that has in-flight writes. -/
theorem cancel_exchange_idempotent_witness :
    sampleStore "/sessions/s1.json" = StoredFile.session sampleSession ∧
      (service_set_exchange_as_cancelled sampleStore "/sessions/s1.json"
          "e1" =
        .ok (saveStore sampleStore
              (sampleSession.set_exchange_as_cancelled "e1"),
             sampleSession.has_running_code_edits "e1") ∧
      service_set_exchange_as_cancelled
          (saveStore sampleStore
            (sampleSession.set_exchange_as_cancelled "e1"))
          "/sessions/s1.json" "e1" =
        .ok (saveStore sampleStore
              (sampleSession.set_exchange_as_cancelled "e1"),
             false) ∧
      (∀ e : Exchange, e.state ≠ ExchangeState.Running →
        e.set_cancelled = e) ∧
      (∀ e : Exchange, e.set_cancelled.state = ExchangeState.Cancelled →
        e.state = ExchangeState.Running ∨
          e.state = ExchangeState.Cancelled)) :=
  ⟨by decide,
   cancel_exchange_idempotent sampleStore "/sessions/s1.json" "e1"
     sampleSession (by decide) rfl⟩

/-- C10 counterexample: a session file that is readable but not valid
session JSON cannot be loaded, yet neither operation returns success —
both panic (the `.expect` inside `load_from_storage`) instead of
returning `Ok` with no effect. -/
theorem undecodable_session_panics_counterexample :
    handle_session_undo (fun s _ => .ok (s, []))
        (fun _ => StoredFile.undecodable "garbage") "e1"
        "/sessions/s1.json" = .panics ∧
      feedback_for_exchange (fun s _ _ _ => .ok s)
        (fun _ => StoredFile.undecodable "garbage") "e1" none true
        "/sessions/s1.json" = .panics :=
  ⟨rfl, rfl⟩

/-- C10 amended: when the session file at the storage path cannot be
**read** (`read_to_string` fails), `handle_session_undo` and
`feedback_for_exchange` return `Ok` with the store unchanged — no
exchange dropped, no file restored, no feedback recorded, no error
surfaced — for every possible undo/react behaviour; but when the file is
readable and fails to deserialise as a session, both operations panic
(the `.expect` in `load_from_storage`) instead of returning. -/
theorem load_failure_noop
    (undoFn : Session → String → Except SymbolError (Session × List String))
    (reactFn : Session → String → Option Nat → Bool → Except SymbolError Session)
    (store : Store) (storage_path exchange_id : String)
    (step_index : Option Nat) (accepted : Bool) :
    (store storage_path = StoredFile.unreadable →
      handle_session_undo undoFn store exchange_id storage_path =
          .ok (store, []) ∧
        feedback_for_exchange reactFn store exchange_id step_index accepted
          storage_path = .ok store) ∧
    (∀ raw, store storage_path = StoredFile.undecodable raw →
      handle_session_undo undoFn store exchange_id storage_path = .panics ∧
        feedback_for_exchange reactFn store exchange_id step_index accepted
          storage_path = .panics) := by
  constructor
  · intro hload
    constructor
    · simp only [handle_session_undo, load_from_storage, hload]
    · simp only [feedback_for_exchange, load_from_storage, hload]
  · intro raw hload
    constructor
    · simp only [handle_session_undo, load_from_storage, hload]
    · simp only [feedback_for_exchange, load_from_storage, hload]

/-- Witness for C10 (amended): the unreadable branch at an absent file
and the panic branch at an undecodable file. -/
theorem load_failure_noop_witness :
    ((fun _ => StoredFile.unreadable : Store) "/sessions/absent.json" =
        StoredFile.unreadable ∧
      (handle_session_undo (fun s _ => .ok (s, []))
          (fun _ => StoredFile.unreadable) "e1" "/sessions/absent.json" =
          .ok ((fun _ => StoredFile.unreadable : Store), []) ∧
        feedback_for_exchange (fun s _ _ _ => .ok s)
          (fun _ => StoredFile.unreadable) "e1" none true
          "/sessions/absent.json" =
          .ok (fun _ => StoredFile.unreadable : Store))) ∧
      ((fun _ => StoredFile.undecodable "junk" : Store)
          "/sessions/bad.json" = StoredFile.undecodable "junk" ∧
        (handle_session_undo (fun s _ => .ok (s, []))
            (fun _ => StoredFile.undecodable "junk") "e1"
            "/sessions/bad.json" = .panics ∧
          feedback_for_exchange (fun s _ _ _ => .ok s)
            (fun _ => StoredFile.undecodable "junk") "e1" none true
            "/sessions/bad.json" = .panics)) :=
  ⟨⟨rfl,
    (load_failure_noop (fun s _ => .ok (s, [])) (fun s _ _ _ => .ok s)
      (fun _ => StoredFile.unreadable) "/sessions/absent.json" "e1" none
      true).1 rfl⟩,
   ⟨rfl,
    (load_failure_noop (fun s _ => .ok (s, [])) (fun s _ _ _ => .ok s)
      (fun _ => StoredFile.undecodable "junk") "/sessions/bad.json" "e1"
      none true).2 "junk" rfl⟩⟩

end SessionSvc

namespace SessionSvc

/-- C8 counterexample: a user context whose only variable is a selection
with an **empty** range (start = end at line 5, column 2) contains no
selection variable with a non-empty range, yet `code_edit_anchored` does
not return early: it opens the selected file (the gate only checks that
the start and end lines are not both zero, not range non-emptiness). -/
theorem anchored_empty_selection_counterexample :
    (∀ v ∈ emptySelectionContext.vars, v.is_selection = true →
      Range.isEmptyRange
        { start_position := v.start_position,
          end_position := v.end_position } = true) ∧
      (code_edit_anchored (fun _ => "file-content") (fun _ _ => none)
          emptySelectionContext).effects =
        [.openFile "src/main.rs", .createExchange, .saveSession] :=
  ⟨by decide, by decide⟩

/-- C8 amended: `code_edit_anchored` requires a selection variable whose
start and end lines are not both zero: when no variable of the user
context is such a selection, the call returns `Ok` having performed no
effect (no file opened, no exchange created, no session saved); when the
filter finds one, the call opens that variable's file and captures the
content in its selection range (falling back to the variable's own
content) before editing and saving. -/
theorem code_edit_anchored_selection_gating (fileContent : String → String)
    (contentInRange : String → Range → Option String)
    (user_context : UserContext) :
    ((∀ v ∈ user_context.vars, ¬(v.is_selection = true ∧
        ¬(v.start_position.line = 0 ∧ v.end_position.line = 0))) →
      code_edit_anchored fileContent contentInRange user_context =
        { effects := [], captured := none }) ∧
    (∀ v, anchored_selection_variable user_context = some v →
      code_edit_anchored fileContent contentInRange user_context =
          { effects := [.openFile v.fs_file_path, .createExchange,
              .saveSession]
            captured := some (v.fs_file_path,
              { start_position := v.start_position,
                end_position := v.end_position },
              (contentInRange (fileContent v.fs_file_path)
                { start_position := v.start_position,
                  end_position := v.end_position }).getD v.content) } ∧
        v ∈ user_context.vars ∧ v.is_selection = true ∧
        ¬(v.start_position.line = 0 ∧ v.end_position.line = 0)) := by
  constructor
  · intro h
    have hnone : anchored_selection_variable user_context = none := by
      rw [anchored_selection_variable, List.find?_eq_none]
      intro v hv
      specialize h v hv
      simp only [Bool.and_eq_true, Bool.not_eq_true', Bool.not_eq_true,
        Bool.and_eq_false_iff, beq_eq_false_iff_ne, ne_eq]
      intro hcontra
      apply h
      constructor
      · exact hcontra.1
      · intro hlines
        rcases hcontra.2 with h0 | h0
        · rw [← Nat.beq_eq] at hlines
          exact absurd hlines.1 (by simpa using h0)
        · rw [← Nat.beq_eq] at hlines
          exact absurd hlines.2 (by simpa using h0)
    simp only [code_edit_anchored, hnone]
  · intro v hv
    have hmem := List.mem_of_find?_eq_some hv
    have hp := List.find?_some hv
    simp only [Bool.and_eq_true, Bool.not_eq_true'] at hp
    refine ⟨?_, hmem, hp.1, ?_⟩
    · simp only [code_edit_anchored, hv]
    · intro hlines
      have : (v.start_position.line == 0 && v.end_position.line == 0) = true := by
        simp [hlines.1, hlines.2]
      rw [this] at hp
      exact absurd hp.2 (by simp)

end SessionSvc

namespace SessionSvc

/-- Witness for C8 (amended): the no-selection branch at an empty user
context, and the selection branch at a context holding one multi-line
selection. -/
theorem code_edit_anchored_selection_gating_witness :
    (code_edit_anchored (fun _ => "body") (fun _ _ => some "ranged")
        { vars := [] } = { effects := [], captured := none }) ∧
      (code_edit_anchored (fun _ => "body") (fun _ _ => some "ranged")
          { vars := [{ variable_kind := VariableKind.Selection,
                       start_position := { line := 3, character := 0 },
                       end_position := { line := 4, character := 5 },
                       fs_file_path := "src/lib.rs",
                       content := "let x = 1" }] } =
          { effects := [.openFile "src/lib.rs", .createExchange,
              .saveSession]
            captured := some ("src/lib.rs",
              { start_position := { line := 3, character := 0 },
                end_position := { line := 4, character := 5 } },
              "ranged") } ∧
        ({ variable_kind := VariableKind.Selection,
           start_position := { line := 3, character := 0 },
           end_position := { line := 4, character := 5 },
           fs_file_path := "src/lib.rs",
           content := "let x = 1" } : VariableInformation) ∈
          ({ vars := [{ variable_kind := VariableKind.Selection,
                        start_position := { line := 3, character := 0 },
                        end_position := { line := 4, character := 5 },
                        fs_file_path := "src/lib.rs",
                        content := "let x = 1" }] } : UserContext).vars ∧
        ({ variable_kind := VariableKind.Selection,
           start_position := { line := 3, character := 0 },
           end_position := { line := 4, character := 5 },
           fs_file_path := "src/lib.rs",
           content := "let x = 1" } : VariableInformation).is_selection =
          true ∧
        ¬(({ variable_kind := VariableKind.Selection,
             start_position := { line := 3, character := 0 },
             end_position := { line := 4, character := 5 },
             fs_file_path := "src/lib.rs",
             content := "let x = 1" } :
            VariableInformation).start_position.line = 0 ∧
          ({ variable_kind := VariableKind.Selection,
             start_position := { line := 3, character := 0 },
             end_position := { line := 4, character := 5 },
             fs_file_path := "src/lib.rs",
             content := "let x = 1" } :
            VariableInformation).end_position.line = 0)) :=
  ⟨(code_edit_anchored_selection_gating (fun _ => "body")
      (fun _ _ => some "ranged") { vars := [] }).1 (by simp),
   (code_edit_anchored_selection_gating (fun _ => "body")
      (fun _ _ => some "ranged")
      { vars := [{ variable_kind := VariableKind.Selection,
                   start_position := { line := 3, character := 0 },
                   end_position := { line := 4, character := 5 },
                   fs_file_path := "src/lib.rs",
                   content := "let x = 1" }] }).2
     { variable_kind := VariableKind.Selection,
       start_position := { line := 3, character := 0 },
       end_position := { line := 4, character := 5 },
       fs_file_path := "src/lib.rs",
       content := "let x = 1" } (by decide)⟩

end SessionSvc
